import Mathlib

/-!
Shallow embedding of the hand-rolled linear-regression code in
`class_tutorial.ipynb`: the numpy class `LinearRegression`, the
torch-autograd class `MixedLinearRegression`, and the full-framework
training loop (`LinReg` module + `nn.MSELoss` + `optim.SGD` + `train`).

Arrays are embedded as `Fin`-indexed functions over `ℚ` (exact arithmetic);
a dataset is `X : Fin m → Fin n → ℚ` (m examples, n features) with labels
`y : Fin m → ℚ`.  Library calls (`np.dot`, `np.mean`, `torch.matmul`,
`torch.mean`, `loss.backward()`, `optimizer.step()`) are given their
documented mathematical semantics.  Over `ℚ` the mean of an empty vector is
`0/0 = 0` (numpy produces `nan` with a RuntimeWarning there, but raises no
error; only totality is claimed about that case).
-/

/-- Mean of a vector of length `m` (`np.mean` / `torch.mean`). -/
def vmean {m : ℕ} (v : Fin m → ℚ) : ℚ := (∑ i, v i) / (m : ℚ)

/-- `np.dot(X, W.T)` for `X : (m, n)` and `W : (t, n)`: entry `(i, j)` is the
dot product of row `i` of `X` with row `j` of `W`. -/
def matmulT {m n t : ℕ} (X : Fin m → Fin n → ℚ) (W : Fin t → Fin n → ℚ) :
    Fin m → Fin t → ℚ :=
  fun i j => ∑ k, X i k * W j k

/-- `.squeeze(-1)` on an `(m, 1)` array: drop the trailing length-1 axis. -/
def squeezeLast {m : ℕ} (Y : Fin m → Fin 1 → ℚ) : Fin m → ℚ :=
  fun i => Y i 0

/-- `np.dot(X.T, v)` for `X : (m, n)` and `v : (m,)`: each column of `X`
dotted with `v`. -/
def dotXT {m n : ℕ} (X : Fin m → Fin n → ℚ) (v : Fin m → ℚ) : Fin n → ℚ :=
  fun j => ∑ i, X i j * v i

/-- State of the numpy class `LinearRegression`:
`W : (n_targets, n_features)` weight matrix and learning rate `lr`. -/
structure LinearRegression (t n : ℕ) where
  W : Fin t → Fin n → ℚ
  lr : ℚ

/-- `LinearRegression.__init__(n_features, n_targets, lr)`:
`self.W = np.zeros((n_targets, n_features))`, `self.lr = lr`. -/
def LinearRegression.init (n_features n_targets : ℕ) (lr : ℚ) :
    LinearRegression n_targets n_features :=
  { W := fun _ _ => 0, lr := lr }

/-- `LinearRegression.predict(X)`: `np.dot(X, self.W.T).squeeze(-1)`.
The squeeze requires `n_targets = 1`, as in every call in the notebook. -/
def LinearRegression.predict {n m : ℕ} (M : LinearRegression 1 n)
    (X : Fin m → Fin n → ℚ) : Fin m → ℚ :=
  squeezeLast (matmulT X M.W)

/-- `LinearRegression.loss(y_hat, y)`: `np.mean(np.power(y_hat - y, 2))`. -/
def LinearRegression.loss {n m : ℕ} (_M : LinearRegression 1 n)
    (y_hat y : Fin m → ℚ) : ℚ :=
  vmean (fun i => (y_hat i - y i) ^ 2)

/-- The hand-computed gradient in `LinearRegression.update_weight`:
`W_grad = 2 * np.dot(X.T, y_hat - y) / m` with `m = X.shape[0]` and
`y_hat = self.predict(X)`. -/
def LinearRegression.W_grad {n m : ℕ} (M : LinearRegression 1 n)
    (X : Fin m → Fin n → ℚ) (y : Fin m → ℚ) : Fin n → ℚ :=
  fun j => 2 * dotXT X (fun i => M.predict X i - y i) j / (m : ℚ)

/-- `LinearRegression.update_weight(X, y)`:
`self.W = self.W - self.lr * W_grad`; the `(n,)` gradient broadcasts
across the rows of the `(1, n)` weight matrix. -/
def LinearRegression.update_weight {n m : ℕ} (M : LinearRegression 1 n)
    (X : Fin m → Fin n → ℚ) (y : Fin m → ℚ) : LinearRegression 1 n :=
  { M with W := fun i j => M.W i j - M.lr * M.W_grad X y j }

/-- `LinearRegression.train(X, y, epochs)`: each iteration calls
`update_weight(X, y)` once, then predicts and appends the loss.  The
mutated `self` is threaded explicitly; the pair is (final state,
`loss_history`). -/
def LinearRegression.train {n m : ℕ} (M : LinearRegression 1 n)
    (X : Fin m → Fin n → ℚ) (y : Fin m → ℚ) :
    ℕ → LinearRegression 1 n × List ℚ
  | 0 => (M, [])
  | e + 1 =>
    let M1 := M.update_weight X y
    let l := M1.loss (M1.predict X) y
    let q := M1.train X y e
    (q.1, l :: q.2)

/-- State of the torch class `MixedLinearRegression`: weights `W` (created
with `requires_grad=True`), the autograd gradient buffer `Wgrad`
(`self.W.grad`; zero stands for the freshly-created/zeroed buffer, since
`backward` accumulates into it), and `lr`. -/
structure MixedLinearRegression (t n : ℕ) where
  W : Fin t → Fin n → ℚ
  Wgrad : Fin t → Fin n → ℚ
  lr : ℚ

/-- `MixedLinearRegression.__init__(n_features, n_targets, lr)`:
`self.W = torch.zeros(n_targets, n_features, requires_grad=True)`. -/
def MixedLinearRegression.init (n_features n_targets : ℕ) (lr : ℚ) :
    MixedLinearRegression n_targets n_features :=
  { W := fun _ _ => 0, Wgrad := fun _ _ => 0, lr := lr }

/-- `MixedLinearRegression.predict(X)`:
`torch.matmul(X, self.W.t()).squeeze(-1)`. -/
def MixedLinearRegression.predict {n m : ℕ} (M : MixedLinearRegression 1 n)
    (X : Fin m → Fin n → ℚ) : Fin m → ℚ :=
  squeezeLast (matmulT X M.W)

/-- `MixedLinearRegression.loss(y_hat, y)`:
`torch.mean(torch.pow(y_hat - y, 2))`. -/
def MixedLinearRegression.loss {n m : ℕ} (_M : MixedLinearRegression 1 n)
    (y_hat y : Fin m → ℚ) : ℚ :=
  vmean (fun i => (y_hat i - y i) ^ 2)

/-- Reverse-mode backward of `torch.mean` (documented autograd semantics):
an upstream scalar cotangent `d` flows to `d / m` at each input slot. -/
def gradMean (m : ℕ) (d : ℚ) : Fin m → ℚ := fun _ => d / (m : ℚ)

/-- Reverse-mode backward of `torch.pow(u, 2)` at input `u`: the upstream
cotangent is multiplied elementwise by `2 * u`. -/
def gradPow2 {m : ℕ} (u d : Fin m → ℚ) : Fin m → ℚ := fun i => 2 * u i * d i

/-- Reverse-mode backward of `torch.matmul(X, W.t())` into `W`: the upstream
cotangent `d` is pulled back to `X.T d`, laid out in the `(1, n)` shape of
`W`.  (`squeeze(-1)` and the subtraction `y_hat - y` pass cotangents
through unchanged.) -/
def gradMatmulW {m n : ℕ} (X : Fin m → Fin n → ℚ) (d : Fin m → ℚ) :
    Fin 1 → Fin n → ℚ :=
  fun _ j => dotXT X d j

/-- The gradient `loss.backward()` deposits for
`loss = torch.mean(torch.pow(y_hat - y, 2))`, `y_hat = predict(X)`:
the composition of the per-operation backward rules, seeded with
cotangent `1` at the loss. -/
def MixedLinearRegression.backwardGrad {n m : ℕ}
    (M : MixedLinearRegression 1 n) (X : Fin m → Fin n → ℚ)
    (y : Fin m → ℚ) : Fin 1 → Fin n → ℚ :=
  gradMatmulW X (gradPow2 (fun i => M.predict X i - y i) (gradMean m 1))

/-- `loss.backward()`: accumulate the gradient into `self.W.grad`. -/
def MixedLinearRegression.backward {n m : ℕ} (M : MixedLinearRegression 1 n)
    (X : Fin m → Fin n → ℚ) (y : Fin m → ℚ) : MixedLinearRegression 1 n :=
  { M with Wgrad := fun i j => M.Wgrad i j + M.backwardGrad X y i j }

/-- `MixedLinearRegression.update_weight()`:
`self.W.data = self.W.data - self.lr * self.W.grad.data`. -/
def MixedLinearRegression.update_weight {n : ℕ}
    (M : MixedLinearRegression 1 n) : MixedLinearRegression 1 n :=
  { M with W := fun i j => M.W i j - M.lr * M.Wgrad i j }

/-- `self.W.grad.data.zero_()`: reset the accumulated gradients. -/
def MixedLinearRegression.zeroGrad {n : ℕ}
    (M : MixedLinearRegression 1 n) : MixedLinearRegression 1 n :=
  { M with Wgrad := fun _ _ => 0 }

/-- `MixedLinearRegression.train(X, y, epochs)`: each iteration predicts,
computes the loss, calls `loss.backward()`, appends the loss, calls
`update_weight()`, and zeroes the gradient buffer — in that order, so the
recorded loss is the one *before* the epoch's update. -/
def MixedLinearRegression.train {n m : ℕ} (M : MixedLinearRegression 1 n)
    (X : Fin m → Fin n → ℚ) (y : Fin m → ℚ) :
    ℕ → MixedLinearRegression 1 n × List ℚ
  | 0 => (M, [])
  | e + 1 =>
    let y_hat := M.predict X
    let l := M.loss y_hat y
    let M1 := M.backward X y
    let M2 := M1.update_weight
    let M3 := M2.zeroGrad
    let q := M3.train X y e
    (q.1, l :: q.2)

/-- Parameters of the framework model `LinReg` (an `nn.Linear(input_dim, 1)`
layer): weight row `w` and bias `b`.  `nn.Linear` initializes them
randomly, so they are taken as inputs here. -/
structure LinReg (n : ℕ) where
  w : Fin n → ℚ
  b : ℚ

/-- `LinReg.forward(X)`: `self.beta(X)`, the affine map `X w.T + b`,
squeezed to one entry per example (the layer's output dimension is 1). -/
def LinReg.forward {n m : ℕ} (M : LinReg n) (X : Fin m → Fin n → ℚ) :
    Fin m → ℚ :=
  fun i => (∑ k, X i k * M.w k) + M.b

/-- `nn.MSELoss()` on `(m, 1)` tensors: the mean of the squared entrywise
differences. -/
def mseLossFn {m : ℕ} (y_ y : Fin m → ℚ) : ℚ :=
  vmean (fun i => (y_ i - y i) ^ 2)

/-- Gradient of the framework loss in the layer weight, as `loss.backward()`
computes it (documented autograd semantics: the same mean / square /
matmul backward rules as in `MixedLinearRegression`). -/
def LinReg.gradW {n m : ℕ} (M : LinReg n) (X : Fin m → Fin n → ℚ)
    (y : Fin m → ℚ) : Fin n → ℚ :=
  dotXT X (gradPow2 (fun i => M.forward X i - y i) (gradMean m 1))

/-- Gradient of the framework loss in the bias: the cotangent arriving at
the bias add is summed over the batch. -/
def LinReg.gradB {n m : ℕ} (M : LinReg n) (X : Fin m → Fin n → ℚ)
    (y : Fin m → ℚ) : ℚ :=
  ∑ i, gradPow2 (fun i' => M.forward X i' - y i') (gradMean m 1) i

/-- `optimizer.step()` for `optim.SGD(model.parameters(), lr)`: every
parameter moves by `-lr` times its gradient. -/
def LinReg.sgdStep {n : ℕ} (M : LinReg n) (lr : ℚ) (gw : Fin n → ℚ)
    (gb : ℚ) : LinReg n :=
  { w := fun j => M.w j - lr * gw j, b := M.b - lr * gb }

/-- The framework `train(model, X, y, epochs)` loop: zero the gradients,
forward, loss, append the loss, backward, `optimizer.step()` — the
recorded loss precedes the epoch's update, as in
`MixedLinearRegression.train`. -/
def frameworkTrain {n m : ℕ} (M : LinReg n) (lr : ℚ)
    (X : Fin m → Fin n → ℚ) (y : Fin m → ℚ) : ℕ → LinReg n × List ℚ
  | 0 => (M, [])
  | e + 1 =>
    let l := mseLossFn (M.forward X) y
    let M1 := M.sgdStep lr (M.gradW X y) (M.gradB X y)
    let q := frameworkTrain M1 lr X y e
    (q.1, l :: q.2)

/-- The mean squared error of the linear prediction `X w.T` against `y`,
as a function of the weight row `w` (the objective the spec says gradient
descent is run on). -/
def mse {m n : ℕ} (X : Fin m → Fin n → ℚ) (y : Fin m → ℚ)
    (w : Fin n → ℚ) : ℚ :=
  vmean (fun i => ((∑ k, X i k * w k) - y i) ^ 2)

/-- `g` is the gradient of `mse X y` at `w`: since `mse X y` is a quadratic
polynomial in `w`, this is the exact expansion
`mse (w + h) = mse w + ⟨g, h⟩ + mean (Xh)²` for every perturbation `h`. -/
def IsMseGradientAt {m n : ℕ} (X : Fin m → Fin n → ℚ) (y : Fin m → ℚ)
    (w g : Fin n → ℚ) : Prop :=
  ∀ h : Fin n → ℚ,
    mse X y (fun j => w j + h j)
      = mse X y w + (∑ j, g j * h j)
        + vmean (fun i => (∑ k, X i k * h k) ^ 2)

/-- The model state of `LinearRegression` after `k` epochs of training on
`(X, y)`: `k` applications of `update_weight(X, y)`. -/
def LinearRegression.afterEpochs {n m : ℕ} (M : LinearRegression 1 n)
    (X : Fin m → Fin n → ℚ) (y : Fin m → ℚ) : ℕ → LinearRegression 1 n
  | 0 => M
  | k + 1 => (M.afterEpochs X y k).update_weight X y

/-- Scalar rearrangement: `2 * (∑ aᵢuᵢ) / m = ∑ aᵢ * (2uᵢ * (1/m))`. -/
lemma two_mul_sum_div {m : ℕ} (a u : Fin m → ℚ) :
    2 * (∑ i, a i * u i) / (m : ℚ) = ∑ i, a i * (2 * u i * (1 / (m : ℚ))) := by
  have h : ∀ i : Fin m,
      a i * (2 * u i * (1 / (m : ℚ))) = a i * u i * (2 * (1 / (m : ℚ))) :=
    fun i => by ring
  simp only [h]
  rw [← Finset.sum_mul]
  ring

/-- When the two classes hold the same weights, they predict alike. -/
lemma predict_agrees {n m : ℕ} (L : LinearRegression 1 n)
    (Mx : MixedLinearRegression 1 n) (hW : L.W = Mx.W)
    (X : Fin m → Fin n → ℚ) : L.predict X = Mx.predict X := by
  simp [LinearRegression.predict, MixedLinearRegression.predict, hW]

/-- The hand-computed gradient of `LinearRegression.update_weight` equals
the gradient autograd deposits for `MixedLinearRegression`, at equal
weights. -/
lemma W_grad_eq_backwardGrad {n m : ℕ} (L : LinearRegression 1 n)
    (Mx : MixedLinearRegression 1 n) (hW : L.W = Mx.W)
    (X : Fin m → Fin n → ℚ) (y : Fin m → ℚ) :
    L.W_grad X y = fun j => Mx.backwardGrad X y 0 j := by
  funext j
  simp only [LinearRegression.W_grad, MixedLinearRegression.backwardGrad,
    gradMatmulW, gradPow2, gradMean, dotXT, LinearRegression.predict,
    MixedLinearRegression.predict, squeezeLast, matmulT, hW]
  exact two_mul_sum_div (fun i => X i j) _

/-- One epoch of each loop moves equal weights to equal weights (the mixed
loop's gradient buffer entering the epoch is zero, as `zero_()` ensures). -/
lemma update_W_agrees {n m : ℕ} (L : LinearRegression 1 n)
    (Mx : MixedLinearRegression 1 n) (hW : L.W = Mx.W) (hlr : L.lr = Mx.lr)
    (hg : Mx.Wgrad = fun _ _ => 0)
    (X : Fin m → Fin n → ℚ) (y : Fin m → ℚ) :
    (L.update_weight X y).W = (((Mx.backward X y).update_weight).zeroGrad).W := by
  funext i j
  have hgrad := congrFun (W_grad_eq_backwardGrad L Mx hW X y) j
  simp only [LinearRegression.update_weight, MixedLinearRegression.zeroGrad,
    MixedLinearRegression.update_weight, MixedLinearRegression.backward,
    hg, hlr, hW, hgrad]
  have hi : Mx.backwardGrad X y 0 j = Mx.backwardGrad X y i j := by
    simp [MixedLinearRegression.backwardGrad, gradMatmulW]
  rw [hi]
  ring

/-- Joint invariant of the two training loops: equal weights, equal
learning rates, zero gradient buffer — preserved over any number of
epochs, with the weight trajectories coinciding. -/
lemma train_state_agrees {n m : ℕ} (X : Fin m → Fin n → ℚ) (y : Fin m → ℚ) :
    ∀ (e : ℕ) (L : LinearRegression 1 n) (Mx : MixedLinearRegression 1 n),
      L.W = Mx.W → L.lr = Mx.lr → Mx.Wgrad = (fun _ _ => 0) →
      (L.train X y e).1.W = (Mx.train X y e).1.W
        ∧ (L.train X y e).1.lr = (Mx.train X y e).1.lr
        ∧ (Mx.train X y e).1.Wgrad = (fun _ _ => 0)
  | 0, L, Mx, hW, hlr, hg => ⟨hW, hlr, hg⟩
  | e + 1, L, Mx, hW, hlr, hg => by
    have hW1 := update_W_agrees L Mx hW hlr hg X y
    have step := train_state_agrees X y e (L.update_weight X y)
      (((Mx.backward X y).update_weight).zeroGrad) hW1 hlr rfl
    simpa [LinearRegression.train, MixedLinearRegression.train] using step

/-- Losses recorded from equal weights are equal. -/
lemma recorded_loss_agrees {n m : ℕ} (L : LinearRegression 1 n)
    (Mx : MixedLinearRegression 1 n) (hW : L.W = Mx.W)
    (X : Fin m → Fin n → ℚ) (y : Fin m → ℚ) :
    L.loss (L.predict X) y = Mx.loss (Mx.predict X) y := by
  rw [predict_agrees L Mx hW X]
  simp [LinearRegression.loss, MixedLinearRegression.loss]

/-- History shift: the numpy loop records each epoch's loss after its
update, the torch loop before; hence the numpy history over `e` epochs is
the torch history over `e + 1` epochs with its head removed. -/
lemma history_shift {n m : ℕ} (X : Fin m → Fin n → ℚ) (y : Fin m → ℚ) :
    ∀ (e : ℕ) (L : LinearRegression 1 n) (Mx : MixedLinearRegression 1 n),
      L.W = Mx.W → L.lr = Mx.lr → Mx.Wgrad = (fun _ _ => 0) →
      (L.train X y e).2 = ((Mx.train X y (e + 1)).2).tail
  | 0, L, Mx, hW, hlr, hg => by
    simp [LinearRegression.train, MixedLinearRegression.train]
  | e + 1, L, Mx, hW, hlr, hg => by
    have hW1 := update_W_agrees L Mx hW hlr hg X y
    have hl := recorded_loss_agrees (L.update_weight X y)
      (((Mx.backward X y).update_weight).zeroGrad) hW1 X y
    have ih := history_shift X y e (L.update_weight X y)
      (((Mx.backward X y).update_weight).zeroGrad) hW1 hlr rfl
    simp only [LinearRegression.train, MixedLinearRegression.train,
      List.tail_cons]
    simp only [LinearRegression.train, MixedLinearRegression.train,
      List.tail_cons] at ih
    exact congrArg₂ List.cons hl ih

/-- Summation exchange: `∑ⱼ (∑ᵢ Xᵢⱼ rᵢ) hⱼ = ∑ᵢ rᵢ (∑ₖ Xᵢₖ hₖ)`. -/
lemma sum_transpose_swap {m n : ℕ} (X : Fin m → Fin n → ℚ)
    (r : Fin m → ℚ) (h : Fin n → ℚ) :
    (∑ j, (∑ i, X i j * r i) * h j) = ∑ i, r i * (∑ k, X i k * h k) := by
  simp only [Finset.sum_mul, Finset.mul_sum]
  rw [Finset.sum_comm]
  exact Finset.sum_congr rfl fun i _ => Finset.sum_congr rfl fun j _ => by ring

/-- The hand-computed gradient `2 ⋅ Xᵀ(Xw - y) / m` is (exactly) the
gradient of the mean squared error at `w`: the quadratic expansion of
`mse` holds with it as the linear coefficient. -/
lemma isMseGradientAt_handGrad {m n : ℕ} (X : Fin m → Fin n → ℚ)
    (y : Fin m → ℚ) (w : Fin n → ℚ) :
    IsMseGradientAt X y w
      (fun j => 2 * dotXT X (fun i => (∑ k, X i k * w k) - y i) j / (m : ℚ)) := by
  intro h
  have expand : ∀ i : Fin m,
      ((∑ k, X i k * (w k + h k)) - y i) ^ 2
        = ((∑ k, X i k * w k) - y i) ^ 2
          + 2 * (((∑ k, X i k * w k) - y i) * (∑ k, X i k * h k))
          + (∑ k, X i k * h k) ^ 2 := by
    intro i
    have hsplit : (∑ k, X i k * (w k + h k))
        = (∑ k, X i k * w k) + (∑ k, X i k * h k) := by
      rw [← Finset.sum_add_distrib]
      exact Finset.sum_congr rfl fun k _ => by ring
    rw [hsplit]; ring
  simp only [IsMseGradientAt, mse, vmean, dotXT] at *
  simp only [expand]
  rw [Finset.sum_add_distrib, Finset.sum_add_distrib, add_div, add_div]
  congr 1
  congr 1
  have hr : ∀ j, 2 * (∑ i, X i j * (((∑ k, X i k * w k) - y i))) / (m : ℚ) * h j
      = ((∑ i, X i j * ((∑ k, X i k * w k) - y i)) * h j) * (2 / (m : ℚ)) :=
    fun j => by ring
  simp only [hr]
  rw [← Finset.sum_mul, sum_transpose_swap]
  have hl : (∑ i, 2 * (((∑ k, X i k * w k) - y i) * (∑ k, X i k * h k)))
      = 2 * ∑ i, ((∑ k, X i k * w k) - y i) * (∑ k, X i k * h k) := by
    rw [Finset.mul_sum]
  rw [hl]
  ring

/-- Shifting the base point of `afterEpochs` by one update. -/
lemma afterEpochs_update_shift {n m : ℕ} (M : LinearRegression 1 n)
    (X : Fin m → Fin n → ℚ) (y : Fin m → ℚ) :
    ∀ k, (M.update_weight X y).afterEpochs X y k = M.afterEpochs X y (k + 1)
  | 0 => rfl
  | k + 1 => by
    have ih := afterEpochs_update_shift M X y k
    simp only [LinearRegression.afterEpochs, ih]

/-- The state `train` returns is the `e`-fold iterate of `update_weight`. -/
lemma train_fst_eq_afterEpochs {n m : ℕ} (X : Fin m → Fin n → ℚ)
    (y : Fin m → ℚ) :
    ∀ (e : ℕ) (M : LinearRegression 1 n),
      (M.train X y e).1 = M.afterEpochs X y e
  | 0, M => rfl
  | e + 1, M => by
    simp only [LinearRegression.train]
    rw [train_fst_eq_afterEpochs X y e (M.update_weight X y),
      afterEpochs_update_shift]

/-- The history `train` returns has one entry per epoch. -/
lemma train_snd_length {n m : ℕ} (X : Fin m → Fin n → ℚ) (y : Fin m → ℚ) :
    ∀ (e : ℕ) (M : LinearRegression 1 n), ((M.train X y e).2).length = e
  | 0, _ => rfl
  | e + 1, M => by
    simp only [LinearRegression.train, List.length_cons]
    rw [train_snd_length X y e (M.update_weight X y)]

/-- Entry `k` of the history is the loss of the state after `k + 1`
updates (the numpy loop records the loss after each epoch's update). -/
lemma train_snd_getD {n m : ℕ} (X : Fin m → Fin n → ℚ) (y : Fin m → ℚ) :
    ∀ (e : ℕ) (M : LinearRegression 1 n) (k : ℕ), k < e →
      ((M.train X y e).2).getD k 0
        = (M.afterEpochs X y (k + 1)).loss
            ((M.afterEpochs X y (k + 1)).predict X) y
  | 0, _, _, hk => absurd hk (Nat.not_lt_zero _)
  | e + 1, M, 0, _ => by
    simp only [LinearRegression.train, List.getD_cons_zero]
    rfl
  | e + 1, M, k + 1, hk => by
    simp only [LinearRegression.train, List.getD_cons_succ]
    rw [train_snd_getD X y e (M.update_weight X y) k (Nat.lt_of_succ_lt_succ hk),
      afterEpochs_update_shift]

/-- C1: from the same all-zero weight matrix, the pure-array-math
`LinearRegression` and the autodiff-based `MixedLinearRegression` produce
exactly the same sequence of weight matrices after each epoch, for every
dataset with at least one example, every label vector, every learning rate
and every epoch count; and the hand-computed gradient
`2 ⋅ Xᵀ(ŷ − y) / m` of `update_weight` equals the gradient automatic
differentiation supplies, in exact rational arithmetic. -/
theorem linear_mixed_weight_sequences_eq {m n : ℕ} (X : Fin m → Fin n → ℚ)
    (y : Fin m → ℚ) (lr : ℚ) (_hm : 1 ≤ m) :
    (∀ e : ℕ,
      (((LinearRegression.init n 1 lr).train X y e).1).W
        = (((MixedLinearRegression.init n 1 lr).train X y e).1).W)
    ∧ ∀ (L : LinearRegression 1 n) (Mx : MixedLinearRegression 1 n),
        L.W = Mx.W →
        L.W_grad X y = (fun j => Mx.backwardGrad X y 0 j) :=
  ⟨fun e => (train_state_agrees X y e _ _ rfl rfl rfl).1,
   fun L Mx hW => W_grad_eq_backwardGrad L Mx hW X y⟩

/-- C1 witness: the theorem applied to the one-example, one-feature
dataset `X = [[1]]`, `y = [1]` with learning rate `1/2`. -/
theorem linear_mixed_weight_sequences_eq_witness :
    1 ≤ 1
    ∧ ((∀ e : ℕ,
        (((LinearRegression.init 1 1 (1/2)).train
            (fun (_ : Fin 1) (_ : Fin 1) => (1 : ℚ)) (fun _ => (1 : ℚ)) e).1).W
          = (((MixedLinearRegression.init 1 1 (1/2)).train
              (fun (_ : Fin 1) (_ : Fin 1) => (1 : ℚ)) (fun _ => (1 : ℚ)) e).1).W)
      ∧ ∀ (L : LinearRegression 1 1) (Mx : MixedLinearRegression 1 1),
          L.W = Mx.W →
          L.W_grad (fun (_ : Fin 1) (_ : Fin 1) => (1 : ℚ)) (fun _ => (1 : ℚ))
            = (fun j => Mx.backwardGrad
                (fun (_ : Fin 1) (_ : Fin 1) => (1 : ℚ)) (fun _ => (1 : ℚ)) 0 j)) :=
  ⟨Nat.le_refl 1,
   linear_mixed_weight_sequences_eq
     (fun (_ : Fin 1) (_ : Fin 1) => (1 : ℚ)) (fun _ => (1 : ℚ)) (1/2)
     (Nat.le_refl 1)⟩

/-- C2 counterexample: on the dataset `X = [[1]]`, `y = [1]` with learning
rate `1/2` and 2 epochs, the three loss histories are not all equal: the
numpy history is `[0, 0]`, the torch history is `[1, 0]`, and the
framework history (its randomly initialized linear layer taken at the
all-zero weight and bias) is `[1, 1]`. -/
theorem loss_histories_differ :
    (((LinearRegression.init 1 1 (1/2)).train
        (fun (_ : Fin 1) (_ : Fin 1) => (1 : ℚ)) (fun _ => (1 : ℚ)) 2).2)
      ≠ (((MixedLinearRegression.init 1 1 (1/2)).train
        (fun (_ : Fin 1) (_ : Fin 1) => (1 : ℚ)) (fun _ => (1 : ℚ)) 2).2)
    ∧ (frameworkTrain (LinReg.mk (fun (_ : Fin 1) => (0 : ℚ)) 0) (1/2)
        (fun (_ : Fin 1) (_ : Fin 1) => (1 : ℚ)) (fun _ => (1 : ℚ)) 2).2
      ≠ (((MixedLinearRegression.init 1 1 (1/2)).train
        (fun (_ : Fin 1) (_ : Fin 1) => (1 : ℚ)) (fun _ => (1 : ℚ)) 2).2) := by
  constructor
  · simp [LinearRegression.train, MixedLinearRegression.train,
      LinearRegression.update_weight, LinearRegression.W_grad,
      LinearRegression.loss, LinearRegression.predict,
      MixedLinearRegression.loss, MixedLinearRegression.predict,
      MixedLinearRegression.backward, MixedLinearRegression.backwardGrad,
      MixedLinearRegression.update_weight, MixedLinearRegression.zeroGrad,
      LinearRegression.init, MixedLinearRegression.init, squeezeLast,
      matmulT, dotXT, vmean, gradMean, gradPow2, gradMatmulW,
      Fin.sum_univ_one]
  · simp [frameworkTrain, MixedLinearRegression.train, LinReg.forward,
      LinReg.gradW, LinReg.gradB, LinReg.sgdStep, mseLossFn,
      MixedLinearRegression.loss, MixedLinearRegression.predict,
      MixedLinearRegression.backward, MixedLinearRegression.backwardGrad,
      MixedLinearRegression.update_weight, MixedLinearRegression.zeroGrad,
      MixedLinearRegression.init, squeezeLast, matmulT, dotXT, vmean,
      gradMean, gradPow2, gradMatmulW, Fin.sum_univ_one]

/-- C2 amended: the two hand-rolled loops agree only up to a one-epoch
shift: `LinearRegression.train` records each epoch's loss after that
epoch's weight update while `MixedLinearRegression.train` records it
before, so for every dataset, learning rate and epoch count `e`, the numpy
history over `e` epochs equals the torch history over `e + 1` epochs with
its first entry removed.  (The framework loop's `nn.Linear` model is
randomly initialized and carries a bias term, so its history does not
match the other two in general.) -/
theorem linear_history_eq_mixed_tail {m n : ℕ} (X : Fin m → Fin n → ℚ)
    (y : Fin m → ℚ) (lr : ℚ) (e : ℕ) :
    (((LinearRegression.init n 1 lr).train X y e).2)
      = ((((MixedLinearRegression.init n 1 lr).train X y (e + 1)).2)).tail :=
  history_shift X y e _ _ rfl rfl rfl

/-- C3: one call to `update_weight(X, y)` replaces `W` by
`W − lr ⋅ (2/m) ⋅ Xᵀ(predict(X) − y)`, the recorded loss is the mean
squared error of the linear prediction, and the hand-computed gradient is
exactly the gradient of that mean squared error — so the update is exactly
one gradient-descent step on it with step size `lr`. -/
theorem update_weight_is_gradient_step {m n : ℕ} (M : LinearRegression 1 n)
    (X : Fin m → Fin n → ℚ) (y : Fin m → ℚ) (_hm : 1 ≤ m) :
    (∀ (i : Fin 1) (j : Fin n),
        (M.update_weight X y).W i j
          = M.W i j - M.lr * (2 / (m : ℚ) * ∑ k, X k j * (M.predict X k - y k)))
    ∧ M.loss (M.predict X) y = mse X y (fun j => M.W 0 j)
    ∧ IsMseGradientAt X y (fun j => M.W 0 j) (fun j => M.W_grad X y j) := by
  refine ⟨fun i j => ?_, ?_, ?_⟩
  · simp only [LinearRegression.update_weight, LinearRegression.W_grad, dotXT]
    ring
  · simp only [LinearRegression.loss, mse, LinearRegression.predict,
      squeezeLast, matmulT]
  · exact isMseGradientAt_handGrad X y (fun j => M.W 0 j)

/-- C3 witness: the theorem applied to the model `init 1 1 (1/2)` on the
dataset `X = [[1]]`, `y = [1]`. -/
theorem update_weight_is_gradient_step_witness :
    1 ≤ 1
    ∧ ((∀ (i : Fin 1) (j : Fin 1),
        ((LinearRegression.init 1 1 (1/2)).update_weight
            (fun (_ : Fin 1) (_ : Fin 1) => (1 : ℚ)) (fun _ => (1 : ℚ))).W i j
          = (LinearRegression.init 1 1 (1/2)).W i j
            - (LinearRegression.init 1 1 (1/2)).lr
              * (2 / ((1 : ℕ) : ℚ)
                * ∑ k, (fun (_ : Fin 1) (_ : Fin 1) => (1 : ℚ)) k j
                  * ((LinearRegression.init 1 1 (1/2)).predict
                        (fun (_ : Fin 1) (_ : Fin 1) => (1 : ℚ)) k - 1)))
      ∧ (LinearRegression.init 1 1 (1/2)).loss
          ((LinearRegression.init 1 1 (1/2)).predict
            (fun (_ : Fin 1) (_ : Fin 1) => (1 : ℚ))) (fun _ => (1 : ℚ))
          = mse (fun (_ : Fin 1) (_ : Fin 1) => (1 : ℚ)) (fun _ => (1 : ℚ))
              (fun j => (LinearRegression.init 1 1 (1/2)).W 0 j)
      ∧ IsMseGradientAt (fun (_ : Fin 1) (_ : Fin 1) => (1 : ℚ))
          (fun _ => (1 : ℚ))
          (fun j => (LinearRegression.init 1 1 (1/2)).W 0 j)
          (fun j => (LinearRegression.init 1 1 (1/2)).W_grad
              (fun (_ : Fin 1) (_ : Fin 1) => (1 : ℚ)) (fun _ => (1 : ℚ)) j)) :=
  ⟨Nat.le_refl 1,
   update_weight_is_gradient_step (LinearRegression.init 1 1 (1/2))
     (fun (_ : Fin 1) (_ : Fin 1) => (1 : ℚ)) (fun _ => (1 : ℚ))
     (Nat.le_refl 1)⟩

/-- C4: `LinearRegression.train` has no edge-case handling or failure
model: for every dataset of matching sizes — the zero-example case
`m = 0` included — and every epoch count, it completes and returns a loss
history (one entry per epoch) without signalling an error; in this total
embedding it is a plain function on all inputs. -/
theorem train_total_no_failure :
    ∀ (m n : ℕ) (M : LinearRegression 1 n) (X : Fin m → Fin n → ℚ)
      (y : Fin m → ℚ) (e : ℕ), ((M.train X y e).2).length = e :=
  fun _ _ M X y e => train_snd_length X y e M

/-- C5: for every epoch count `e` and non-empty well-shaped dataset,
`train(X, y, e)` terminates with a loss history of exactly `e` entries;
the loop runs exactly `e` iterations, the final state being the `e`-fold
iterate of `update_weight`, and in epoch order entry `k` of the history
is the single loss recorded right after the `k+1`-st update. -/
theorem train_epoch_count_and_order {m n : ℕ} (M : LinearRegression 1 n)
    (X : Fin m → Fin n → ℚ) (y : Fin m → ℚ) (e : ℕ) (_hm : 1 ≤ m) :
    ((M.train X y e).2).length = e
    ∧ (M.train X y e).1 = M.afterEpochs X y e
    ∧ ∀ k, k < e →
        ((M.train X y e).2).getD k 0
          = (M.afterEpochs X y (k + 1)).loss
              ((M.afterEpochs X y (k + 1)).predict X) y :=
  ⟨train_snd_length X y e M, train_fst_eq_afterEpochs X y e M,
   fun k hk => train_snd_getD X y e M k hk⟩

/-- C5 witness: the theorem applied to `init 1 1 (1/2)` on `X = [[1]]`,
`y = [1]` with 2 epochs. -/
theorem train_epoch_count_and_order_witness :
    1 ≤ 1
    ∧ ((((LinearRegression.init 1 1 (1/2)).train
          (fun (_ : Fin 1) (_ : Fin 1) => (1 : ℚ)) (fun _ => (1 : ℚ)) 2).2).length = 2
      ∧ ((LinearRegression.init 1 1 (1/2)).train
          (fun (_ : Fin 1) (_ : Fin 1) => (1 : ℚ)) (fun _ => (1 : ℚ)) 2).1
        = (LinearRegression.init 1 1 (1/2)).afterEpochs
            (fun (_ : Fin 1) (_ : Fin 1) => (1 : ℚ)) (fun _ => (1 : ℚ)) 2
      ∧ ∀ k, k < 2 →
          (((LinearRegression.init 1 1 (1/2)).train
              (fun (_ : Fin 1) (_ : Fin 1) => (1 : ℚ)) (fun _ => (1 : ℚ)) 2).2).getD k 0
            = ((LinearRegression.init 1 1 (1/2)).afterEpochs
                  (fun (_ : Fin 1) (_ : Fin 1) => (1 : ℚ)) (fun _ => (1 : ℚ)) (k + 1)).loss
                (((LinearRegression.init 1 1 (1/2)).afterEpochs
                    (fun (_ : Fin 1) (_ : Fin 1) => (1 : ℚ)) (fun _ => (1 : ℚ)) (k + 1)).predict
                  (fun (_ : Fin 1) (_ : Fin 1) => (1 : ℚ))) (fun _ => (1 : ℚ))) :=
  ⟨Nat.le_refl 1,
   train_epoch_count_and_order (LinearRegression.init 1 1 (1/2))
     (fun (_ : Fin 1) (_ : Fin 1) => (1 : ℚ)) (fun _ => (1 : ℚ)) 2
     (Nat.le_refl 1)⟩

/-- C6: for equal-length vectors of length `m ≥ 1`, both `loss` methods
return the squared-error loss `(1/m) ⋅ ∑ᵢ (ŷᵢ − yᵢ)²`, the mean of the
squared componentwise differences. -/
theorem loss_is_mean_squared_error {m n : ℕ} (L : LinearRegression 1 n)
    (Mx : MixedLinearRegression 1 n) (y_hat y : Fin m → ℚ) (_hm : 1 ≤ m) :
    L.loss y_hat y = (1 / (m : ℚ)) * ∑ i, (y_hat i - y i) ^ 2
    ∧ Mx.loss y_hat y = (1 / (m : ℚ)) * ∑ i, (y_hat i - y i) ^ 2 := by
  constructor
  · simp only [LinearRegression.loss, vmean]; ring
  · simp only [MixedLinearRegression.loss, vmean]; ring

/-- C6 witness: the theorem applied to the length-1 vectors
`y_hat = [3]`, `y = [1]`. -/
theorem loss_is_mean_squared_error_witness :
    1 ≤ 1
    ∧ ((LinearRegression.init 1 1 (1/2)).loss
          (fun (_ : Fin 1) => (3 : ℚ)) (fun _ => (1 : ℚ))
        = (1 / ((1 : ℕ) : ℚ)) * ∑ i : Fin 1,
            ((fun (_ : Fin 1) => (3 : ℚ)) i - (fun (_ : Fin 1) => (1 : ℚ)) i) ^ 2
      ∧ (MixedLinearRegression.init 1 1 (1/2)).loss
          (fun (_ : Fin 1) => (3 : ℚ)) (fun _ => (1 : ℚ))
        = (1 / ((1 : ℕ) : ℚ)) * ∑ i : Fin 1,
            ((fun (_ : Fin 1) => (3 : ℚ)) i - (fun (_ : Fin 1) => (1 : ℚ)) i) ^ 2) :=
  ⟨Nat.le_refl 1,
   loss_is_mean_squared_error (LinearRegression.init 1 1 (1/2))
     (MixedLinearRegression.init 1 1 (1/2))
     (fun _ => (3 : ℚ)) (fun _ => (1 : ℚ)) (Nat.le_refl 1)⟩

/-- C7: the hand-rolled model is linear: `predict(X)` is the length-`m`
vector `X Wᵀ` squeezed to one dimension; for fixed weights it is additive
and homogeneous in `X`, and it predicts `0` on the zero input — there is
no bias term. -/
theorem predict_linear_no_bias {m n : ℕ} (M : LinearRegression 1 n)
    (X : Fin m → Fin n → ℚ) :
    (∀ i, M.predict X i = squeezeLast (matmulT X M.W) i)
    ∧ (∀ i, M.predict X i = ∑ k, X i k * M.W 0 k)
    ∧ (∀ X1 X2 : Fin m → Fin n → ℚ,
        M.predict (fun i k => X1 i k + X2 i k)
          = fun i => M.predict X1 i + M.predict X2 i)
    ∧ (∀ (c : ℚ) (X1 : Fin m → Fin n → ℚ),
        M.predict (fun i k => c * X1 i k) = fun i => c * M.predict X1 i)
    ∧ M.predict (fun (_ : Fin m) (_ : Fin n) => (0 : ℚ)) = fun _ => (0 : ℚ) := by
  refine ⟨fun i => rfl, fun i => rfl, fun X1 X2 => ?_, fun c X1 => ?_, ?_⟩
  · funext i
    simp [LinearRegression.predict, squeezeLast, matmulT, add_mul,
      Finset.sum_add_distrib]
  · funext i
    simp [LinearRegression.predict, squeezeLast, matmulT, mul_assoc,
      Finset.mul_sum]
  · funext i
    simp [LinearRegression.predict, squeezeLast, matmulT]

/-- C8: training is batch gradient descent: each epoch of
`LinearRegression.train` performs exactly one `update_weight` call, and
that update's gradient is computed from the entire dataset at once (its
sum ranges over all `m` examples), never one update per example. -/
theorem train_is_batch_gradient_descent {m n : ℕ} (M : LinearRegression 1 n)
    (X : Fin m → Fin n → ℚ) (y : Fin m → ℚ) :
    (∀ e : ℕ,
      (M.train X y (e + 1)).1 = ((M.train X y e).1).update_weight X y)
    ∧ ∀ (M' : LinearRegression 1 n) (i : Fin 1) (j : Fin n),
        (M'.update_weight X y).W i j
          = M'.W i j
            - M'.lr * (2 * (∑ i', X i' j * (M'.predict X i' - y i')) / (m : ℚ)) := by
  constructor
  · intro e
    rw [train_fst_eq_afterEpochs X y (e + 1) M, train_fst_eq_afterEpochs X y e M]
    simp only [LinearRegression.afterEpochs]
  · intro M' i j
    rfl

/-- Learning rate is untouched by the numpy training loop. -/
lemma linear_train_lr {n m : ℕ} (X : Fin m → Fin n → ℚ) (y : Fin m → ℚ) :
    ∀ (e : ℕ) (M : LinearRegression 1 n), ((M.train X y e).1).lr = M.lr
  | 0, _ => rfl
  | e + 1, M => by
    simp only [LinearRegression.train]
    rw [linear_train_lr X y e]
    rfl

/-- Learning rate is untouched by the torch training loop. -/
lemma mixed_train_lr {n m : ℕ} (X : Fin m → Fin n → ℚ) (y : Fin m → ℚ) :
    ∀ (e : ℕ) (M : MixedLinearRegression 1 n), ((M.train X y e).1).lr = M.lr
  | 0, _ => rfl
  | e + 1, M => by
    simp only [MixedLinearRegression.train]
    rw [mixed_train_lr X y e]
    rfl

/-- C9: `predict` and `loss` are read-only (in this embedding they are
pure functions of the state, returning no new state), the learning rate is
immutable — no operation of a whole training run of either class ever
changes `lr` — and the weights change only through `update_weight`: the
state `train` returns carries the starting `lr` and a `W` that is exactly
the iterate of `update_weight`. -/
theorem predict_loss_pure_lr_immutable {m n : ℕ} (L : LinearRegression 1 n)
    (Mx : MixedLinearRegression 1 n) (X : Fin m → Fin n → ℚ)
    (y : Fin m → ℚ) (e : ℕ) :
    ((L.train X y e).1).lr = L.lr
    ∧ ((Mx.train X y e).1).lr = Mx.lr
    ∧ (L.update_weight X y).lr = L.lr
    ∧ (Mx.update_weight).lr = Mx.lr
    ∧ ((L.train X y e).1).W = (L.afterEpochs X y e).W :=
  ⟨linear_train_lr X y e L, mixed_train_lr X y e Mx, rfl, rfl,
   congrArg LinearRegression.W (train_fst_eq_afterEpochs X y e L)⟩

/-- C10: weight initialization is deterministic, not random: both
constructors set `W` to the all-zero matrix of shape
`(n_targets, n_features)`; consequently every first-epoch prediction is
exactly `0`, and the first loss `MixedLinearRegression.train` records is
the mean of the squares of the labels. -/
theorem init_zero_deterministic {n : ℕ} (lr : ℚ) :
    (∀ (t n' : ℕ) (i : Fin t) (j : Fin n'),
        (LinearRegression.init n' t lr).W i j = 0
        ∧ (MixedLinearRegression.init n' t lr).W i j = 0)
    ∧ (∀ (m : ℕ) (X : Fin m → Fin n → ℚ),
        (LinearRegression.init n 1 lr).predict X = (fun _ => 0)
        ∧ (MixedLinearRegression.init n 1 lr).predict X = (fun _ => 0))
    ∧ ∀ (m : ℕ) (X : Fin m → Fin n → ℚ) (y : Fin m → ℚ) (e : ℕ),
        (((MixedLinearRegression.init n 1 lr).train X y (e + 1)).2).headD 0
          = vmean (fun i => y i ^ 2) := by
  refine ⟨fun t n' i j => ⟨rfl, rfl⟩, fun m X => ⟨?_, ?_⟩, fun m X y e => ?_⟩
  · funext i
    simp [LinearRegression.predict, LinearRegression.init, squeezeLast,
      matmulT]
  · funext i
    simp [MixedLinearRegression.predict, MixedLinearRegression.init,
      squeezeLast, matmulT]
  · simp only [MixedLinearRegression.train, List.headD_cons]
    simp [MixedLinearRegression.loss, MixedLinearRegression.predict,
      MixedLinearRegression.init, squeezeLast, matmulT, vmean, zero_sub,
      neg_sq]
